import Mathlib

/-!
Verification of the InitGit repository's command-execution layer,
orchestrator and dependency scanner.

The definitions below are a shallow embedding of the Python source:

* `src/_command.py` — the `Command` class (shell quoting in `__init__`,
  subprocess execution and error mapping in `run`, the context-manager
  `__exit__`, and the post-run delay bookkeeping via `_slept`);
* `src/initgit.py` — the `commit` and `create_repo` orchestrator
  functions (and the module-level `cmd` runner they call);
* `src/util.py` — `find_imports`, `_is_stdlib` / `is_stdlib`,
  `get_installed_version` and `generate_requirements`.

Strings are modelled as `List Char` in the quoting/lexing layer (to ease
induction) and as `String` in the orchestrator/scanner layer.  External
effects (process spawning, the filesystem, `pip`, `sys.modules`,
`importlib.util.find_spec`) are modelled by explicit oracle parameters.
-/

namespace InitGit

/-! ### Characters and Python `str.strip` -/

/-- The single-quote character (written via its code point). -/
def squote : Char := Char.ofNat 39

/-- The double-quote character. -/
def dquote : Char := Char.ofNat 34

/-- The backslash character. -/
def bslash : Char := Char.ofNat 92

/-- Python `str.strip()` whitespace: space, tab, newline, carriage return,
vertical tab, form feed (the ASCII whitespace Python strips). -/
def isPyWs (c : Char) : Bool :=
  c = ' ' || c = Char.ofNat 9 || c = Char.ofNat 10 || c = Char.ofNat 13 ||
  c = Char.ofNat 11 || c = Char.ofNat 12

/-- Model of Python `str.strip()`: drop leading and trailing whitespace. -/
def pyStrip (s : List Char) : List Char :=
  ((s.dropWhile isPyWs).reverse.dropWhile isPyWs).reverse

/-! ### `shlex.quote` (CPython implementation)

CPython: a character is *unsafe* unless it is an ASCII word character
(letter, digit, underscore) or one of `@ % + = : , . /` or dash.
`shlex.quote(s)` returns `''` for empty `s`, returns `s` unchanged when
all characters are safe, and otherwise wraps `s` in single quotes,
rewriting every embedded single quote to `'"'"'`. -/

/-- Safe characters for `shlex.quote` (everything else triggers quoting). -/
def shSafe (c : Char) : Bool :=
  c.isAlphanum || c ∈ ['_', '@', '%', '+', '=', ':', ',', '.', '/', '-']

/-- Rewrite each embedded single quote `'` to `'"'"'` (close the single-quoted
region, emit a double-quoted `'`, reopen the region). -/
def escQuote : List Char → List Char
  | [] => []
  | c :: cs => (if c = squote then [squote, dquote, squote, dquote, squote] else [c]) ++ escQuote cs

/-- Model of `shlex.quote`. -/
def shlexQuote (s : List Char) : List Char :=
  if s = [] then [squote, squote]
  else if s.all shSafe then s
  else squote :: escQuote s ++ [squote]

/-- Model of `Command.__init__` (src/_command.py:53): the text the Runner executes is
`shlex.quote(self.command.strip()).strip()`. -/
def commandText (command : List Char) : List Char :=
  pyStrip (shlexQuote (pyStrip command))

/-! ### A POSIX-shell / `shlex.split` tokenizer

One tokenizer models both the shell's own word/operator recognition (the
form `sp.run(self.text, shell=True)` hands to `/bin/sh -c`) and
`shlex.split` in POSIX mode.  The flag `u` enables recognition of shell
control-operator characters; `shlex.split` does not treat them specially
(`u = false`), the shell does (`u = true`).  Unterminated quotes yield
`none` (both `sh` and `shlex` reject them). -/

/-- A shell token: a word, or a control operator character. -/
inductive ShTok where
  | word (w : List Char)
  | op (c : Char)
deriving DecidableEq, Repr

/-- Shell control-operator / redirection characters. -/
def shOps : List Char := ['|', '&', ';', '<', '>', '(', ')']

/-- Shell field-splitting whitespace. -/
def isShWs (c : Char) : Bool :=
  c = ' ' || c = Char.ofNat 9 || c = Char.ofNat 10 || c = Char.ofNat 13

/-- Tokenizer mode: outside quotes, inside single/double quotes, or just
after a backslash (returning to normal/double-quote mode). -/
inductive LexMode where
  | normal
  | insingle
  | indouble
  | escNormal
  | escDouble
deriving DecidableEq, Repr

/-- Append the pending word (if any) to the token list. -/
def flushTok (acc : Option (List Char)) (toks : List ShTok) : List ShTok :=
  match acc with
  | none => toks
  | some w => toks ++ [ShTok.word w]

/-- The tokenizer.  `acc = some w` means a word `w` is in progress (possibly
empty, e.g. from `''`); `acc = none` means no word has started. -/
def lexAux (u : Bool) : List Char → LexMode → Option (List Char) → List ShTok → Option (List ShTok)
  | [], .normal, acc, toks => some (flushTok acc toks)
  | [], .insingle, _, _ => none
  | [], .indouble, _, _ => none
  | [], .escNormal, _, _ => none
  | [], .escDouble, _, _ => none
  | c :: cs, .normal, acc, toks =>
    if isShWs c then lexAux u cs .normal none (flushTok acc toks)
    else if u && shOps.contains c then lexAux u cs .normal none (flushTok acc toks ++ [ShTok.op c])
    else if c = squote then lexAux u cs .insingle (some (acc.getD [])) toks
    else if c = dquote then lexAux u cs .indouble (some (acc.getD [])) toks
    else if c = bslash then lexAux u cs .escNormal (some (acc.getD [])) toks
    else lexAux u cs .normal (some (acc.getD [] ++ [c])) toks
  | c :: cs, .insingle, acc, toks =>
    if c = squote then lexAux u cs .normal acc toks
    else lexAux u cs .insingle (some (acc.getD [] ++ [c])) toks
  | c :: cs, .indouble, acc, toks =>
    if c = dquote then lexAux u cs .normal acc toks
    else if c = bslash then lexAux u cs .escDouble acc toks
    else lexAux u cs .indouble (some (acc.getD [] ++ [c])) toks
  | c :: cs, .escNormal, acc, toks => lexAux u cs .normal (some (acc.getD [] ++ [c])) toks
  | c :: cs, .escDouble, acc, toks => lexAux u cs .indouble (some (acc.getD [] ++ [c])) toks

/-- Tokenization as performed by `/bin/sh -c` on the executed text
(operators recognized). -/
def shellLex (s : List Char) : Option (List ShTok) :=
  lexAux true s .normal none []

/-- Model of `shlex.split` (POSIX mode, no operator recognition):
the word list. -/
def shlexSplit (s : List Char) : Option (List (List Char)) :=
  (lexAux false s .normal none []).map fun toks =>
    toks.filterMap fun t => match t with
      | .word w => some w
      | .op _ => none

/-- The metacharacters named by the specification: pipes, redirects and
control operators. -/
def shellMeta : List Char := ['|', '&', ';', '<', '>']

/-! ### The Command Runner (src/_command.py, class `Command`)

`Command.run` executes `sp.run(self.text, check=True, capture_output=True,
cwd=self.cwd, shell=True, text=True)` and maps the outcome through three
`except` branches (`sp.CalledProcessError`, `FileNotFoundError`, `Exception`),
each raising a `CommandError`; a `finally` block performs `sleep(self.delay)`
once, guarded by the `_slept` flag.  The subprocess call itself is modelled by
a `SpawnOutcome` oracle value. -/

/-- Which `except` branch of `Command.run` raised: non-zero exit
(`sp.CalledProcessError`), spawn failure (`FileNotFoundError`), or the
catch-all `Exception` branch. -/
inductive ErrKind where
  | exitFailure
  | notFound
  | generic
deriving DecidableEq, Repr

/-- The raised `CommandError` together with its cause: `cmd`/`errcode` are the
constructor arguments; `stderrPayload` is the captured stderr carried by the
chained `CalledProcessError` (`raise ... from e`); `outputMsg` is the
`output=` keyword payload built in the spawn-failure branches. -/
structure CmdError where
  kind : ErrKind
  cmd : List Char
  errcode : Int
  stderrPayload : Option (List Char)
  outputMsg : Option (List Char)
deriving DecidableEq, Repr

/-- Outcome of the `sp.run(...)` call: the child completed (with captured
stdout/stderr and a return code), the spawn raised `FileNotFoundError`
(e.g. a nonexistent working directory), or some other exception occurred
(e.g. `NotADirectoryError` for a working directory that is not a directory). -/
inductive SpawnOutcome where
  | completed (stdout stderr : List Char) (retcode : Int)
  | spawnNotFound (errno : Int) (fname fname2 strerror : List Char)
  | spawnOther (msg : List Char)
deriving DecidableEq, Repr

/-- The mutable attributes of a `Command` object used by `run`/`__exit__`. -/
structure CommandState where
  command : List Char
  text : List Char
  slept : Bool
  errorCode : Int
  output : Option (List Char)
deriving DecidableEq, Repr

/-- Model of `Command.__init__`: `text = shlex.quote(command.strip()).strip()`,
`error_code = 0`, `output = None`, `_slept = False`. -/
def commandInit (command : List Char) : CommandState :=
  { command := command
    text := commandText command
    slept := false
    errorCode := 0
    output := none }

/-- The `output` string of the `FileNotFoundError` branch
(`f"File not found: 1. {e.filename}\n 2. {e.filename2}\t|\tOutput: {e.strerror}"`). -/
def fnfOutput (f1 f2 strerr : List Char) : List Char :=
  "File not found: 1. ".toList ++ f1 ++ "\n 2. ".toList ++ f2 ++
    "\t|\tOutput: ".toList ++ strerr

/-- The `output` string of the catch-all branch
(`f"A generic error occurred in Command class: {e}"`). -/
def genericOutput (m : List Char) : List Char :=
  "A generic error occurred in Command class: ".toList ++ m

/-- The fallback return string of a successful `run` when stdout is empty
(`f"Command '{self.text}' executed successfully: {list(self)}"`); the
interpolated attribute dump is abbreviated to the command text — no claim
depends on this cosmetic string. -/
def successFallbackMsg (s : CommandState) : List Char :=
  "Command ".toList ++ s.text ++ " executed successfully".toList

/-- Result of one `Command.run` call: the updated object state, the returned
string or raised `CommandError`, and how many times `sleep(self.delay)` ran
(the `finally` block fires it exactly when `_slept` was still false). -/
structure RunResult where
  state : CommandState
  result : Except CmdError (List Char)
  sleeps : Nat

/-- Model of `Command.run` (src/_command.py:130-198). -/
def commandRun (s : CommandState) (outcome : SpawnOutcome) : RunResult :=
  let post : Nat := if s.slept then 0 else 1
  match outcome with
  | .completed out err rc =>
    if rc = 0 then
      let outv : Option (List Char) := if out = [] then none else some (pyStrip out)
      let ret : List Char :=
        match outv with
        | some o => if o = [] then successFallbackMsg s else o
        | none => successFallbackMsg s
      { state := { s with output := outv, errorCode := 0, slept := true }
        result := .ok ret
        sleeps := post }
    else
      { state := { s with command := s.text, output := some out, errorCode := rc, slept := true }
        result := .error
          { kind := .exitFailure, cmd := s.text, errcode := rc
            stderrPayload := some err, outputMsg := none }
        sleeps := post }
  | .spawnNotFound errno f1 f2 strerr =>
    let msg := fnfOutput f1 f2 strerr
    { state := { s with output := some msg, errorCode := errno, slept := true }
      result := .error
        { kind := .notFound, cmd := s.command, errcode := errno
          stderrPayload := none, outputMsg := some msg }
      sleeps := post }
  | .spawnOther m =>
    let msg := genericOutput m
    { state := { s with output := some msg, errorCode := 69, slept := true }
      result := .error
        { kind := .generic, cmd := s.command, errcode := 69
          stderrPayload := none, outputMsg := some msg }
      sleeps := post }

/-- Model of `Command.__exit__` (src/_command.py:105-128).  `exc = some rc` models an
exception raised in the context body (carrying return code `rc`); the result
is the updated state, the number of sleeps performed, and the returned
boolean. -/
def commandExit (s : CommandState) (exc : Option Int) : CommandState × Nat × Bool :=
  match exc with
  | some rc => ({ s with errorCode := rc }, 0, false)
  | none =>
    if s.errorCode ≠ 0 then (s, 0, false)
    else if s.slept then (s, 0, true)
    else ({ s with slept := true }, 1, true)

/-- The scoped invocation `with Command(...) as com: <body>`: `__enter__` calls
`run`; if `run` raises, `__exit__` never runs and the exception propagates;
otherwise the body runs (`bodyExc` models an exception raised there) and
`__exit__` runs.  Returns the total number of `sleep(self.delay)` calls. -/
def scopedSleeps (command : List Char) (outcome : SpawnOutcome) (bodyExc : Option Int) : Nat :=
  let r := commandRun (commandInit command) outcome
  match r.result with
  | .error _ => r.sleeps
  | .ok _ => r.sleeps + (commandExit r.state bodyExc).2.1

/-- The error kind of a run, if it raised. -/
def runErrKind (r : RunResult) : Option ErrKind :=
  match r.result with
  | .error e => some e.kind
  | .ok _ => none

/-- The captured stderr carried by the raised error, if any. -/
def runErrStderr (r : RunResult) : Option (List Char) :=
  match r.result with
  | .error e => e.stderrPayload
  | .ok _ => none

/-- The error code carried by the raised error, if any. -/
def runErrCode (r : RunResult) : Option Int :=
  match r.result with
  | .error e => some e.errcode
  | .ok _ => none

/-! ### Sorting (model of Python `sorted` on strings)

Python compares strings lexicographically by code point; `sorted` returns the
sorted permutation.  The comparison and insertion sort below are executable
and kernel-reducible, so witnesses can evaluate them by `decide`. -/

/-- Code-point lexicographic order on character lists (Python string `<=`). -/
def lexLe : List Char → List Char → Bool
  | [], _ => true
  | _ :: _, [] => false
  | a :: as, b :: bs => if a.toNat = b.toNat then lexLe as bs else decide (a.toNat < b.toNat)

/-- Python string comparison. -/
def strLe (a b : String) : Bool := lexLe a.toList b.toList

/-- Insert into a sorted list. -/
def insertLe {α : Type} (le : α → α → Bool) (a : α) : List α → List α
  | [] => [a]
  | b :: bs => if le a b then a :: b :: bs else b :: insertLe le a bs

/-- Insertion sort (extensionally, Python `sorted`). -/
def sortLe {α : Type} (le : α → α → Bool) : List α → List α
  | [] => []
  | a :: as => insertLe le a (sortLe le as)

/-- The list is sorted with respect to `le`. -/
def sortedB {α : Type} (le : α → α → Bool) : List α → Bool
  | [] => true
  | [_] => true
  | a :: b :: rest => le a b && sortedB le (b :: rest)

/-! ### The Dependency Scanner (src/util.py)

`find_imports` walks a directory tree, matches `IMPORT_RE` against each
`.py` file, and filters the extracted identifiers; `generate_requirements`
resolves versions via `pip show`.  The walk is abstracted to the list of
scanned files (each a list of lines, in walk order); `sys.stdlib_module_names`,
`sys.modules`, `importlib.util.find_spec` and the `pip` query are environment
oracles. -/

/-- Outcome of `importlib.util.find_spec(top_level)`: it raised
`ModuleNotFoundError`, returned `None`, returned a spec without an origin, or
returned a spec with the given origin path. -/
inductive SpecResult where
  | raisesNotFound
  | noSpec
  | noOrigin
  | origin (path : String)
deriving DecidableEq, Repr

/-- The scanner's environment: the stdlib allow-list
(`sys.stdlib_module_names`), the module-spec oracle, the top-level names of
the modules loaded in `sys.modules` (`all_modules()`), and the installed
version oracle (`get_installed_version`, `None` when `pip show` fails or
prints no `Version:` line). -/
structure ScanEnv where
  stdlib : List String
  findSpec : String → SpecResult
  loaded : List String
  version : String → Option String

/-- Model of `mod.split('.')[0]`: the characters before the first dot. -/
def topLevel (m : String) : String := String.mk (m.toList.takeWhile fun c => c ≠ '.')

/-- Substring containment (Python `in` on strings). -/
def containsSub (needle hay : List Char) : Bool :=
  hay.tails.any fun t => needle.isPrefixOf t

/-- Model of `_is_stdlib` (src/util.py:172-182) as wrapped by `is_stdlib` (185-193):
allow-list membership of top level or full name, else inspect the spec —
`None`/no-origin specs are not stdlib, `built-in` is, otherwise stdlib means
the origin lies outside `site-packages`/`dist-packages`; a
`ModuleNotFoundError` from `find_spec` is caught and yields `False`. -/
def isStdlibM (env : ScanEnv) (moduleName : String) : Bool :=
  let top := topLevel moduleName
  if top ∈ env.stdlib ∨ moduleName ∈ env.stdlib then true
  else
    match env.findSpec top with
    | .raisesNotFound => false
    | .noSpec => false
    | .noOrigin => false
    | .origin p =>
      if p = "built-in" then true
      else !containsSub "site-packages".toList p.toList &&
        !containsSub "dist-packages".toList p.toList

/-- Identifier start per `IMPORT_RE` (`[a-zA-Z_]`). -/
def isIdentStart (c : Char) : Bool := c.isAlpha || c = '_'

/-- Identifier continuation per `IMPORT_RE` (word characters and dots). -/
def isIdentCont (c : Char) : Bool := c.isAlphanum || c = '_' || c = '.'

/-- Match a keyword followed by at least one whitespace character; return the
rest of the line with that whitespace consumed. -/
def afterKeyword (kw cs : List Char) : Option (List Char) :=
  if kw.isPrefixOf cs then
    match cs.drop kw.length with
    | [] => none
    | c :: rest => if isPyWs c then some ((c :: rest).dropWhile isPyWs) else none
  else none

/-- Parse the captured dotted identifier. -/
def matchIdent (cs : List Char) : Option String :=
  match cs with
  | [] => none
  | c :: rest =>
    if isIdentStart c then some (String.mk (c :: rest.takeWhile isIdentCont)) else none

/-- Per-line model of `IMPORT_RE` (src/util.py:154):
`^\s*(?:import|from)\s+([a-zA-Z_][\w.]*)` with `re.MULTILINE` — leading
whitespace, then `import` or `from`, then whitespace, then the dotted
identifier. -/
def matchImportLine (line : String) : Option String :=
  let cs := line.toList.dropWhile isPyWs
  match afterKeyword "import".toList cs with
  | some rest => matchIdent rest
  | none =>
    match afterKeyword "from".toList cs with
    | some rest => matchIdent rest
    | none => none

/-- Model of `IMPORT_RE.findall(text)` over one file's lines. -/
def fileImports (lines : List String) : List String := lines.filterMap matchImportLine

/-- The per-identifier filter of `find_imports` (src/util.py:206-213): skip
self-imports, then add the top-level name when
`(not is_stdlib(mod) or not is_stdlib(top_level)) and top_level in
all_modules()` (set semantics: no duplicates). -/
def findImportsStep (env : ScanEnv) (pkg : String) (acc : List String) (m : String) :
    List String :=
  let top := topLevel m
  if top = pkg then acc
  else if (isStdlibM env m = false ∨ isStdlibM env top = false) ∧ top ∈ env.loaded then
    if top ∈ acc then acc else acc ++ [top]
  else acc

/-- Model of `find_imports` (src/util.py:196-231): collect over all files, return `[]`
when nothing was found, else the sorted list. -/
def findImports (env : ScanEnv) (files : List (List String)) (pkg : String) : List String :=
  let imports :=
    files.foldl (fun acc f => (fileImports f).foldl (findImportsStep env pkg) acc) []
  if imports = [] then [] else sortLe strLe imports

/-- One requirements entry (src/util.py:284): `f"{pkg}=={version}" if version
else pkg` — Python treats an empty version string as falsy. -/
def reqEntry (env : ScanEnv) (pkg : String) : String :=
  match env.version pkg with
  | some v => if v = "" then pkg else pkg ++ "==" ++ v
  | none => pkg

/-- Model of `generate_requirements` (src/util.py:274-285); the package-name detection
(`find_top_package_name`) is supplied as `pkg`. -/
def generateRequirements (env : ScanEnv) (files : List (List String)) (pkg : String) :
    List String :=
  sortLe strLe ((findImports env files pkg).map (reqEntry env))

/-! ### The Workflow Orchestrator (src/initgit.py)

`commit` and `create_repo` sequence calls to the module-level `cmd` runner;
the runner itself is an oracle `String → Except OrchError String` (a raised
`CommandError` or the returned stdout). -/

/-- String-level wrappers over the quoting layer. -/
def pyStripS (s : String) : String := String.mk (pyStrip s.toList)

def shlexQuoteS (s : String) : String := String.mk (shlexQuote s.toList)

/-- Model of `shlex.split` on strings; outputs of `shlex.quote` always tokenize, so the
error case defaults to the empty list. -/
def shlexSplitS (s : String) : List String := ((shlexSplit s.toList).getD []).map String.mk

/-- The `CommandError` of src/initgit.py: offending command text, error code,
and the first message argument. -/
structure OrchError where
  cmd : String
  errcode : Int
  msg : String
deriving DecidableEq, Repr

/-- The three-step fallback sequence of `create_repo`
(src/initgit.py:364): rename branch, add remote, push with upstream
tracking. -/
def backupCmds (username repoName : String) : List String :=
  ["git branch -m master",
   "git remote add origin https://github.com/" ++ username ++ "/" ++ repoName ++ ".git",
   "git push -u origin master"]

/-- The list comprehension `[cmd(c) for c in backupcmds]`: run each command in
order; the first raised error aborts. -/
def runSeq (runO : String → Except OrchError String) : List String → Except OrchError (List String)
  | [] => .ok []
  | c :: cs =>
    match runO c with
    | .error e => .error e
    | .ok r =>
      match runSeq runO cs with
      | .error e => .error e
      | .ok rs => .ok (r :: rs)

/-- The primary-plus-fallback region of `create_repo` (src/initgit.py:365-387):
run the combined `gh repo create` command; on a `CommandError`, record it and
— only when its error code equals 1 — run the three backup commands once; when
those also fail, record the fallback error and raise the combined error.
Returns how many times the fallback sequence was started, the outcome, and the
recorded errors in order. -/
def createRepoAttempt (runO : String → Except OrchError String)
    (repoCmd username repoName : String) :
    Nat × Except OrchError Unit × List OrchError :=
  match runO repoCmd with
  | .ok _ => (0, .ok (), [])
  | .error e =>
    if e.errcode = 1 then
      match runSeq runO (backupCmds username repoName) with
      | .ok _ => (1, .ok (), [e])
      | .error e2 =>
        (1,
         .error
           { cmd := e2.cmd, errcode := e2.errcode
             msg := "Failed to create remote repository " ++ repoName ++
               ". Check the commands and try again." },
         [e, e2])
    else (0, .ok (), [e])

/-- Environment of the `commit` orchestrator: whether `GITDIR` / `MSGFILE`
exist, the `COMMIT_EDITMSG` content, the interactive inputs, the timestamp
`stamp_date()`, and the runner oracle. -/
structure CommitEnv where
  gitdirExists : Bool
  msgfileExists : Bool
  msgfileContent : String
  inputDefaultMsg : String
  inputNewMsg : String
  nowStamp : String
  runO : String → Except OrchError String

/-- Result of `commit`: the returned value (`none` models the `return None`
fall-through after a caught `CommandError`, src/initgit.py:244-247) or the
raised no-repository error; the issued `git commit` command lines; and how
many times the user was re-prompted for a new message. -/
structure CommitResult where
  outcome : Except OrchError (Option String)
  issued : List String
  prompts : Nat

/-- Model of `commit` (src/initgit.py:223-247).  The function re-invokes itself after a
re-prompt; with constant interactive input that recursion need not terminate,
so the model carries explicit fuel and reports a distinguished error when the
fuel runs out (never reached in the theorems below). -/
def commitStep (env : CommitEnv) : Nat → Option String → CommitResult
  | 0, _ =>
    { outcome := .error { cmd := "commit", errcode := 1, msg := "recursion fuel exhausted" }
      issued := [], prompts := 0 }
  | fuel + 1, messageArg =>
    let message := pyStripS (shlexQuoteS (match messageArg with
      | some m => if m = "" then env.inputDefaultMsg else m
      | none => env.inputDefaultMsg))
    if env.gitdirExists = false then
      { outcome := .error { cmd := "git init", errcode := 1, msg := "No git repository found." }
        issued := [], prompts := 0 }
    else
      let dup : Bool :=
        if env.msgfileExists then
          let messages := shlexSplitS (shlexQuoteS (pyStripS env.msgfileContent))
          decide (message ∈ messages) || decide (message ∈ messages.map pyStripS) ||
            decide (message = "")
        else false
      if dup then
        let q := shlexQuoteS (pyStripS env.inputNewMsg)
        let newMsg := if q = "" then env.nowStamp else q
        let r := commitStep env fuel (some newMsg)
        { r with prompts := r.prompts + 1 }
      else
        let message2 := if message = "" then env.nowStamp else message
        let c := "git commit -m " ++ message2
        match env.runO c with
        | .ok r => { outcome := .ok (some r), issued := [c], prompts := 0 }
        | .error _ => { outcome := .ok none, issued := [c], prompts := 0 }

/-- A commit environment with no `.git` directory. -/
def noRepoEnv : CommitEnv :=
  { gitdirExists := false, msgfileExists := false, msgfileContent := ""
    inputDefaultMsg := "m", inputNewMsg := "n", nowStamp := "2026-10-12 00:00:00"
    runO := fun _ => .ok "" }

/-- The commit environment of the C9 failing input: `COMMIT_EDITMSG` already
contains exactly `hello world` and every spawned command succeeds. -/
def dupMsgEnv : CommitEnv :=
  { gitdirExists := true, msgfileExists := true, msgfileContent := "hello world"
    inputDefaultMsg := "unused", inputNewMsg := "alternate", nowStamp := "2026-10-12 00:00:00"
    runO := fun _ => .ok "" }

/-- The single-quoted commit command the code issues at the C9 failing input
(`git commit -m 'hello world'`, apostrophes built explicitly). -/
def dupIssuedCmd : String :=
  "git commit -m " ++ String.mk [squote] ++ "hello world" ++ String.mk [squote]

/-! ### Lemmas about stripping and quoting -/

lemma mem_dropWhile_of_not {p : Char → Bool} {c : Char} (hc : p c = false) :
    ∀ {l : List Char}, c ∈ l → c ∈ l.dropWhile p := by
  intro l hl
  induction l with
  | nil => simp at hl
  | cons a as ih =>
    rw [List.dropWhile_cons]
    cases ha : p a with
    | true =>
      simp only [if_pos]
      rcases List.mem_cons.mp hl with rfl | h2
      · rw [hc] at ha; exact Bool.noConfusion ha
      · exact ih h2
    | false =>
      simp only [Bool.false_eq_true, if_false]
      exact hl

lemma mem_pyStrip {c : Char} (hc : isPyWs c = false) {l : List Char} (hl : c ∈ l) :
    c ∈ pyStrip l := by
  unfold pyStrip
  rw [List.mem_reverse]
  exact mem_dropWhile_of_not hc (by rw [List.mem_reverse]; exact mem_dropWhile_of_not hc hl)

/-- Stripping a list whose first and last characters are not whitespace is the
identity. -/
lemma pyStrip_sandwich {c c' : Char} (h : isPyWs c = false) (h' : isPyWs c' = false)
    (cs : List Char) : pyStrip (c :: cs ++ [c']) = c :: cs ++ [c'] := by
  rw [List.cons_append]
  have e1 : List.dropWhile isPyWs (c :: (cs ++ [c'])) = c :: (cs ++ [c']) := by
    rw [List.dropWhile_cons]; simp [h]
  have e2 : List.dropWhile isPyWs (c' :: (cs.reverse ++ [c])) = c' :: (cs.reverse ++ [c]) := by
    rw [List.dropWhile_cons]; simp [h']
  have e3 : (c :: (cs ++ [c'])).reverse = c' :: (cs.reverse ++ [c]) := by simp
  rw [pyStrip.eq_def]
  rw [e1, e3, e2]
  simp

/-- One-step equations for `lexAux` (the recursive equations restated for
rewriting). -/
lemma lexAux_nil_normal (u : Bool) (acc : Option (List Char)) (toks : List ShTok) :
    lexAux u [] .normal acc toks = some (flushTok acc toks) := rfl

lemma lexAux_cons_normal (u : Bool) (c : Char) (cs : List Char)
    (acc : Option (List Char)) (toks : List ShTok) :
    lexAux u (c :: cs) .normal acc toks =
      if isShWs c then lexAux u cs .normal none (flushTok acc toks)
      else if u && shOps.contains c then
        lexAux u cs .normal none (flushTok acc toks ++ [ShTok.op c])
      else if c = squote then lexAux u cs .insingle (some (acc.getD [])) toks
      else if c = dquote then lexAux u cs .indouble (some (acc.getD [])) toks
      else if c = bslash then lexAux u cs .escNormal (some (acc.getD [])) toks
      else lexAux u cs .normal (some (acc.getD [] ++ [c])) toks := rfl

lemma lexAux_cons_insingle (u : Bool) (c : Char) (cs : List Char)
    (acc : Option (List Char)) (toks : List ShTok) :
    lexAux u (c :: cs) .insingle acc toks =
      if c = squote then lexAux u cs .normal acc toks
      else lexAux u cs .insingle (some (acc.getD [] ++ [c])) toks := rfl

lemma lexAux_cons_indouble (u : Bool) (c : Char) (cs : List Char)
    (acc : Option (List Char)) (toks : List ShTok) :
    lexAux u (c :: cs) .indouble acc toks =
      if c = dquote then lexAux u cs .normal acc toks
      else if c = bslash then lexAux u cs .escDouble acc toks
      else lexAux u cs .indouble (some (acc.getD [] ++ [c])) toks := rfl

lemma escQuote_cons (c : Char) (cs : List Char) :
    escQuote (c :: cs) =
      (if c = squote then [squote, dquote, squote, dquote, squote] else [c]) ++ escQuote cs := rfl

lemma meta_not_ws {c : Char} (h : c ∈ shellMeta) : isPyWs c = false := by
  simp only [shellMeta, List.mem_cons, List.not_mem_nil, or_false] at h
  rcases h with rfl | rfl | rfl | rfl | rfl <;> decide

lemma meta_not_safe {c : Char} (h : c ∈ shellMeta) : shSafe c = false := by
  simp only [shellMeta, List.mem_cons, List.not_mem_nil, or_false] at h
  rcases h with rfl | rfl | rfl | rfl | rfl <;> decide

lemma isShWs_squote : isShWs squote = false := by decide
lemma isShWs_dquote : isShWs dquote = false := by decide
lemma sq_not_op : shOps.contains squote = false := by decide
lemma dq_not_op : shOps.contains dquote = false := by decide
lemma sq_ne_dq : ¬ squote = dquote := by decide
lemma dq_ne_sq : ¬ dquote = squote := by decide
lemma sq_ne_bs : ¬ squote = bslash := by decide
lemma isPyWs_squote : isPyWs squote = false := by decide

/-- Consuming the quote-escaped form of `s` while inside single quotes appends
`s` literally to the word in progress. -/
lemma lexAux_escQuote (u : Bool) :
    ∀ (s rest acc : List Char) (toks : List ShTok),
      lexAux u (escQuote s ++ rest) .insingle (some acc) toks =
      lexAux u rest .insingle (some (acc ++ s)) toks := by
  intro s
  induction s with
  | nil => intro rest acc toks; simp [escQuote]
  | cons c cs ih =>
    intro rest acc toks
    by_cases hc : c = squote
    · subst hc
      rw [escQuote_cons, if_pos rfl, List.append_assoc]
      simp only [List.cons_append, List.nil_append]
      rw [lexAux_cons_insingle, if_pos rfl]
      rw [lexAux_cons_normal]
      rw [if_neg (by rw [isShWs_dquote]; exact Bool.false_ne_true),
        if_neg (by rw [dq_not_op, Bool.and_false]; exact Bool.false_ne_true),
        if_neg dq_ne_sq, if_pos rfl, Option.getD_some]
      rw [lexAux_cons_indouble, if_neg sq_ne_dq, if_neg sq_ne_bs, Option.getD_some]
      rw [lexAux_cons_indouble, if_pos rfl]
      rw [lexAux_cons_normal]
      rw [if_neg (by rw [isShWs_squote]; exact Bool.false_ne_true),
        if_neg (by rw [sq_not_op, Bool.and_false]; exact Bool.false_ne_true),
        if_pos rfl, Option.getD_some]
      rw [ih]
      simp
    · rw [escQuote_cons, if_neg hc, List.append_assoc]
      simp only [List.cons_append, List.nil_append]
      rw [lexAux_cons_insingle, if_neg hc, Option.getD_some, ih]
      simp

/-- C1 — For every command string containing shell metacharacters, the text the
Runner executes (`shlex.quote(command.strip()).strip()`, run via the shell)
tokenizes to a single literal word equal to the stripped command — no operator
token is produced, so pipes/redirects are literal — and `shlex.split` of that
text likewise returns the stripped command as the single argument token. -/
theorem c1_runner_escaping (command : List Char)
    (h1 : pyStrip command ≠ [])
    (h2 : ∃ c, c ∈ command ∧ c ∈ shellMeta) :
    shellLex (commandText command) = some [ShTok.word (pyStrip command)] ∧
    shlexSplit (commandText command) = some [pyStrip command] := by
  obtain ⟨c, hcmem, hcmeta⟩ := h2
  have hcws : isPyWs c = false := meta_not_ws hcmeta
  have hct : c ∈ pyStrip command := mem_pyStrip hcws hcmem
  have hall : (pyStrip command).all shSafe = false := by
    cases hAll : (pyStrip command).all shSafe
    · rfl
    · exfalso
      have hx := List.all_eq_true.mp hAll c hct
      rw [meta_not_safe hcmeta] at hx
      exact Bool.noConfusion hx
  have hq : shlexQuote (pyStrip command) = squote :: escQuote (pyStrip command) ++ [squote] := by
    rw [shlexQuote, if_neg h1, if_neg (by simp [hall])]
  have htext : commandText command = squote :: escQuote (pyStrip command) ++ [squote] := by
    rw [commandText, hq]
    exact pyStrip_sandwich isPyWs_squote isPyWs_squote _
  have key : ∀ u : Bool, lexAux u (squote :: escQuote (pyStrip command) ++ [squote])
      .normal none [] = some [ShTok.word (pyStrip command)] := by
    intro u
    rw [List.cons_append, lexAux_cons_normal]
    rw [if_neg (by rw [isShWs_squote]; exact Bool.false_ne_true),
      if_neg (by rw [sq_not_op, Bool.and_false]; exact Bool.false_ne_true),
      if_pos rfl, Option.getD_none]
    rw [lexAux_escQuote]
    rw [lexAux_cons_insingle, if_pos rfl]
    rw [lexAux_nil_normal]
    simp [flushTok]
  refine ⟨?_, ?_⟩
  · rw [htext, shellLex, key true]
  · rw [htext, shlexSplit, key false]
    simp [List.filterMap]

/-- Witness for C1 at the concrete command `echo a | cat`. -/
theorem c1_runner_escaping_witness :
    shellLex (commandText ['e', 'c', 'h', 'o', ' ', 'a', ' ', '|', ' ', 'c', 'a', 't']) =
      some [ShTok.word ['e', 'c', 'h', 'o', ' ', 'a', ' ', '|', ' ', 'c', 'a', 't']] ∧
    shlexSplit (commandText ['e', 'c', 'h', 'o', ' ', 'a', ' ', '|', ' ', 'c', 'a', 't']) =
      some [['e', 'c', 'h', 'o', ' ', 'a', ' ', '|', ' ', 'c', 'a', 't']] := by
  have h := c1_runner_escaping ['e', 'c', 'h', 'o', ' ', 'a', ' ', '|', ' ', 'c', 'a', 't']
    (by decide) ⟨'|', by decide, by decide⟩
  have e : pyStrip ['e', 'c', 'h', 'o', ' ', 'a', ' ', '|', ' ', 'c', 'a', 't'] =
      ['e', 'c', 'h', 'o', ' ', 'a', ' ', '|', ' ', 'c', 'a', 't'] := by decide
  rw [e] at h
  exact h

/-- C3 — For every scoped Runner invocation, the configured post-run delay
fires exactly once, on every exit path: child success, non-zero exit, spawn
exception, generic exception, and regardless of an exception in the context
body. -/
theorem c3_delay_exactly_once (command : List Char) (outcome : SpawnOutcome)
    (bodyExc : Option Int) : scopedSleeps command outcome bodyExc = 1 := by
  cases outcome with
  | completed out err rc =>
    by_cases hrc : rc = 0
    · cases bodyExc <;>
        simp [scopedSleeps, commandRun, commandInit, commandExit, hrc]
    · simp [scopedSleeps, commandRun, commandInit, hrc]
  | spawnNotFound errno f1 f2 strerr => simp [scopedSleeps, commandRun, commandInit]
  | spawnOther m => simp [scopedSleeps, commandRun, commandInit]

/-- C8 — A child process exiting non-zero raises through the
`CalledProcessError` branch: the structured error has the exit-failure kind
and carries the captured stderr and exit code; a spawn exception
(`FileNotFoundError`) raises through the distinct not-found branch. -/
theorem c8_error_kind_mapping (s : CommandState) (out err : List Char) (rc : Int)
    (h : rc ≠ 0) (errno : Int) (f1 f2 strerr : List Char) :
    runErrKind (commandRun s (.completed out err rc)) = some ErrKind.exitFailure ∧
    runErrStderr (commandRun s (.completed out err rc)) = some err ∧
    runErrCode (commandRun s (.completed out err rc)) = some rc ∧
    runErrKind (commandRun s (.spawnNotFound errno f1 f2 strerr)) = some ErrKind.notFound ∧
    ErrKind.notFound ≠ ErrKind.exitFailure := by
  refine ⟨?_, ?_, ?_, ?_, by decide⟩ <;>
    simp [commandRun, runErrKind, runErrStderr, runErrCode, h]

/-- Witness for C8 at a concrete failing command. -/
theorem c8_error_kind_mapping_witness :
    runErrKind (commandRun (commandInit ['g', 'i', 't'])
        (.completed [] ['b', 'o', 'o', 'm'] 1)) = some ErrKind.exitFailure ∧
    runErrStderr (commandRun (commandInit ['g', 'i', 't'])
        (.completed [] ['b', 'o', 'o', 'm'] 1)) = some ['b', 'o', 'o', 'm'] ∧
    runErrCode (commandRun (commandInit ['g', 'i', 't'])
        (.completed [] ['b', 'o', 'o', 'm'] 1)) = some 1 ∧
    runErrKind (commandRun (commandInit ['g', 'i', 't'])
        (.spawnNotFound 2 ['g'] [] ['x'])) = some ErrKind.notFound ∧
    ErrKind.notFound ≠ ErrKind.exitFailure :=
  c8_error_kind_mapping (commandInit ['g', 'i', 't']) [] ['b', 'o', 'o', 'm'] 1
    (by decide) 2 ['g'] [] ['x']

/-- C7 counterexample — the Runner does not reject invalid inputs before
spawning: a command that is empty after trimming is quoted to `''` and
spawned; with a POSIX shell the child exits 127 and the raised error is the
exit-failure kind, not the claimed not-found kind; and a working directory
that exists but is not a directory surfaces as `NotADirectoryError`, mapped by
the catch-all branch to the generic kind (code 69), again not the not-found
kind. -/
theorem c7_validation_counterexample :
    commandText [] = [squote, squote] ∧
    runErrKind (commandRun (commandInit [])
        (.completed [] "sh: 1: : not found".toList 127)) = some ErrKind.exitFailure ∧
    runErrKind (commandRun (commandInit "git status".toList)
        (.spawnOther "NotADirectoryError".toList)) = some ErrKind.generic ∧
    runErrCode (commandRun (commandInit "git status".toList)
        (.spawnOther "NotADirectoryError".toList)) = some 69 ∧
    some ErrKind.exitFailure ≠ some ErrKind.notFound ∧
    some ErrKind.generic ≠ some ErrKind.notFound := by
  refine ⟨by decide, ?_, ?_, ?_, by decide, by decide⟩ <;>
    simp [commandRun, runErrKind, runErrCode, commandInit]

/-- C7 amended — the Runner performs no pre-spawn validation; the error kind
is determined by the spawn outcome alone: a spawn-time `FileNotFoundError`
(nonexistent working directory) yields the not-found kind; any other spawn
exception (e.g. a non-directory working directory) yields the generic kind;
an empty-after-trim command is quoted to `''` and spawned, and a non-zero
shell exit (127 for an unknown command) yields the exit-failure kind. -/
theorem c7_error_kinds_amended (s : CommandState) (errno : Int)
    (f1 f2 strerr m out err : List Char) :
    runErrKind (commandRun s (.spawnNotFound errno f1 f2 strerr)) = some ErrKind.notFound ∧
    runErrKind (commandRun s (.spawnOther m)) = some ErrKind.generic ∧
    runErrCode (commandRun s (.spawnOther m)) = some 69 ∧
    runErrKind (commandRun (commandInit []) (.completed out err 127)) =
      some ErrKind.exitFailure ∧
    commandText [] = [squote, squote] := by
  refine ⟨?_, ?_, ?_, ?_, by decide⟩ <;> simp [commandRun, runErrKind, runErrCode]

lemma lexLe_total : ∀ a b : List Char, lexLe a b = true ∨ lexLe b a = true := by
  intro a
  induction a with
  | nil => intro b; exact .inl rfl
  | cons x xs ih =>
    intro b
    cases b with
    | nil => exact .inr rfl
    | cons y ys =>
      by_cases hxy : x.toNat = y.toNat
      · rw [lexLe, if_pos hxy, lexLe, if_pos hxy.symm]
        exact ih ys
      · rw [lexLe, if_neg hxy, lexLe, if_neg (fun h => hxy h.symm)]
        rcases Nat.lt_or_ge x.toNat y.toNat with h | h
        · exact .inl (by simpa using h)
        · exact .inr (by simpa using Nat.lt_of_le_of_ne h (fun e => hxy e.symm))

lemma strLe_total (a b : String) : strLe a b = true ∨ strLe b a = true :=
  lexLe_total a.toList b.toList

lemma sortedB_cons₂ {α : Type} (le : α → α → Bool) (a b : α) (rest : List α) :
    sortedB le (a :: b :: rest) = (le a b && sortedB le (b :: rest)) := rfl

lemma sortedB_insertLe {α : Type} (le : α → α → Bool)
    (htot : ∀ a b, le a b = true ∨ le b a = true) (a : α) :
    ∀ l, sortedB le l = true → sortedB le (insertLe le a l) = true := by
  intro l
  induction l with
  | nil => intro _; rfl
  | cons b bs ih =>
    intro hl
    by_cases hab : le a b = true
    · rw [insertLe, if_pos hab, sortedB_cons₂, hab, Bool.true_and]
      exact hl
    · have hba : le b a = true := (htot a b).resolve_left hab
      rw [insertLe, if_neg hab]
      cases bs with
      | nil =>
        rw [insertLe, sortedB_cons₂, hba, Bool.true_and]
        rfl
      | cons c cs =>
        rw [sortedB_cons₂, Bool.and_eq_true] at hl
        obtain ⟨hbc, hcc⟩ := hl
        by_cases hac : le a c = true
        · rw [insertLe, if_pos hac, sortedB_cons₂, hba, Bool.true_and,
            sortedB_cons₂, hac, Bool.true_and]
          exact hcc
        · have hs : sortedB le (insertLe le a (c :: cs)) = true := ih hcc
          rw [insertLe, if_neg hac] at hs
          rw [insertLe, if_neg hac, sortedB_cons₂, hbc, Bool.true_and]
          exact hs

lemma sortedB_sortLe {α : Type} (le : α → α → Bool)
    (htot : ∀ a b, le a b = true ∨ le b a = true) :
    ∀ l, sortedB le (sortLe le l) = true := by
  intro l
  induction l with
  | nil => rfl
  | cons a as ih =>
    rw [sortLe]
    exact sortedB_insertLe le htot a _ ih

lemma mem_insertLe {α : Type} (le : α → α → Bool) (a y : α) :
    ∀ l, y ∈ insertLe le a l ↔ y = a ∨ y ∈ l := by
  intro l
  induction l with
  | nil => simp [insertLe]
  | cons b bs ih =>
    rw [insertLe]
    by_cases h : le a b = true
    · rw [if_pos h]
      simp [List.mem_cons]
    · rw [if_neg h]
      simp only [List.mem_cons, ih]
      tauto

lemma mem_sortLe {α : Type} (le : α → α → Bool) (y : α) :
    ∀ l, y ∈ sortLe le l ↔ y ∈ l := by
  intro l
  induction l with
  | nil => simp [sortLe]
  | cons a as ih =>
    rw [sortLe, mem_insertLe]
    simp [List.mem_cons, ih]

lemma isStdlibM_of_top_mem (env : ScanEnv) (m : String) (h : topLevel m ∈ env.stdlib) :
    isStdlibM env m = true := by
  unfold isStdlibM
  rw [if_pos (Or.inl h)]

lemma isStdlibM_self_mem (env : ScanEnv) (t : String) (h : t ∈ env.stdlib) :
    isStdlibM env t = true := by
  unfold isStdlibM
  rw [if_pos (Or.inr h)]

/-- Elements produced by one filter step are either old or satisfy the
invariant: not stdlib, not the package itself, and loaded. -/
lemma findImportsStep_mem (env : ScanEnv) (pkg : String) (acc : List String)
    (x m : String) (hm : m ∈ findImportsStep env pkg acc x) :
    m ∈ acc ∨ (m ∉ env.stdlib ∧ m ≠ pkg ∧ m ∈ env.loaded) := by
  unfold findImportsStep at hm
  by_cases h1 : topLevel x = pkg
  · rw [if_pos h1] at hm
    exact .inl hm
  · rw [if_neg h1] at hm
    by_cases h2 : (isStdlibM env x = false ∨ isStdlibM env (topLevel x) = false) ∧
        topLevel x ∈ env.loaded
    · rw [if_pos h2] at hm
      by_cases h3 : topLevel x ∈ acc
      · rw [if_pos h3] at hm
        exact .inl hm
      · rw [if_neg h3] at hm
        rcases List.mem_append.mp hm with h | h
        · exact .inl h
        · have hmt : m = topLevel x := by simpa using h
          subst hmt
          refine .inr ⟨?_, h1, h2.2⟩
          intro hstd
          rcases h2.1 with h4 | h4
          · rw [isStdlibM_of_top_mem env x hstd] at h4
            exact Bool.noConfusion h4
          · rw [isStdlibM_self_mem env _ hstd] at h4
            exact Bool.noConfusion h4
    · rw [if_neg h2] at hm
      exact .inl hm

/-- When the identifier's top level is a stdlib name the step is a no-op. -/
lemma findImportsStep_stdlib (env : ScanEnv) (pkg : String) (acc : List String)
    (x : String) (h : topLevel x ∈ env.stdlib) :
    findImportsStep env pkg acc x = acc := by
  unfold findImportsStep
  by_cases h1 : topLevel x = pkg
  · rw [if_pos h1]
  · rw [if_neg h1, if_neg]
    rintro ⟨hor, _⟩
    rcases hor with h2 | h2
    · rw [isStdlibM_of_top_mem env x h] at h2
      exact Bool.noConfusion h2
    · rw [isStdlibM_self_mem env _ h] at h2
      exact Bool.noConfusion h2

lemma foldl_findImportsStep_mem (env : ScanEnv) (pkg : String) :
    ∀ (ms : List String) (acc : List String) (m : String),
      m ∈ ms.foldl (findImportsStep env pkg) acc →
      m ∈ acc ∨ (m ∉ env.stdlib ∧ m ≠ pkg ∧ m ∈ env.loaded) := by
  intro ms
  induction ms with
  | nil => intro acc m hm; exact .inl hm
  | cons x xs ih =>
    intro acc m hm
    rw [List.foldl_cons] at hm
    rcases ih _ m hm with h | h
    · exact findImportsStep_mem env pkg acc x m h
    · exact .inr h

lemma files_fold_mem (env : ScanEnv) (pkg : String) :
    ∀ (files : List (List String)) (acc : List String) (m : String),
      m ∈ files.foldl (fun acc f => (fileImports f).foldl (findImportsStep env pkg) acc) acc →
      m ∈ acc ∨ (m ∉ env.stdlib ∧ m ≠ pkg ∧ m ∈ env.loaded) := by
  intro files
  induction files with
  | nil => intro acc m hm; exact .inl hm
  | cons f fs ih =>
    intro acc m hm
    rw [List.foldl_cons] at hm
    rcases ih _ m hm with h | h
    · exact foldl_findImportsStep_mem env pkg (fileImports f) acc m h
    · exact .inr h

/-- The collected-set invariant of `find_imports`. -/
lemma mem_findImports (env : ScanEnv) (files : List (List String)) (pkg m : String)
    (hm : m ∈ findImports env files pkg) :
    m ∉ env.stdlib ∧ m ≠ pkg ∧ m ∈ env.loaded := by
  unfold findImports at hm
  by_cases he :
      files.foldl (fun acc f => (fileImports f).foldl (findImportsStep env pkg) acc) [] = []
  · rw [if_pos he] at hm
    simp at hm
  · rw [if_neg he, mem_sortLe] at hm
    rcases files_fold_mem env pkg files [] m hm with h | h
    · simp at h
    · exact h

/-- C4 — The Dependency Scanner's output never contains the package's own
name or a standard-library module; when every import extracted from the
scanned files has a standard-library top level, the result is the empty
list. -/
theorem c4_scanner_invariant (env : ScanEnv) (files : List (List String)) (pkg : String) :
    (∀ m ∈ findImports env files pkg, m ≠ pkg ∧ m ∉ env.stdlib) ∧
    ((∀ f ∈ files, ∀ x ∈ fileImports f, topLevel x ∈ env.stdlib) →
      findImports env files pkg = []) := by
  constructor
  · intro m hm
    obtain ⟨h1, h2, _⟩ := mem_findImports env files pkg m hm
    exact ⟨h2, h1⟩
  · intro hall
    have hfold : ∀ (fs : List (List String)), (∀ f ∈ fs, ∀ x ∈ fileImports f,
        topLevel x ∈ env.stdlib) → ∀ (acc : List String),
        fs.foldl (fun acc f => (fileImports f).foldl (findImportsStep env pkg) acc) acc
          = acc := by
      intro fs
      induction fs with
      | nil => intro _ acc; rfl
      | cons f fs ih =>
        intro hh acc
        rw [List.foldl_cons]
        have hstep : ∀ (ms : List String), (∀ x ∈ ms, topLevel x ∈ env.stdlib) →
            ∀ (a : List String), ms.foldl (findImportsStep env pkg) a = a := by
          intro ms
          induction ms with
          | nil => intro _ a; rfl
          | cons x xs ihx =>
            intro hx a
            rw [List.foldl_cons, findImportsStep_stdlib env pkg a x
              (hx x (List.mem_cons_self x xs))]
            exact ihx (fun y hy => hx y (List.mem_cons_of_mem x hy)) a
        rw [hstep (fileImports f) (hh f (List.mem_cons_self f fs)) acc]
        exact ih (fun g hg => hh g (List.mem_cons_of_mem f hg)) acc
    unfold findImports
    rw [hfold files hall []]
    rfl

/-- Witness for C4: a file importing only stdlib modules yields no
dependencies, and the invariant holds at the same input. -/
theorem c4_scanner_invariant_witness :
    findImports
      { stdlib := ["os", "sys", "re"], findSpec := fun _ => SpecResult.noSpec,
        loaded := ["os", "sys"], version := fun _ => none }
      [["import os", "from sys import path", "x = 1"]] "mypkg" = [] ∧
    (∀ m ∈ findImports
      { stdlib := ["os", "sys", "re"], findSpec := fun _ => SpecResult.noSpec,
        loaded := ["os", "sys"], version := fun _ => none }
      [["import os", "from sys import path", "x = 1"]] "mypkg",
      m ≠ "mypkg" ∧ m ∉ ["os", "sys", "re"]) := by
  have h := c4_scanner_invariant
    { stdlib := ["os", "sys", "re"], findSpec := fun _ => SpecResult.noSpec,
      loaded := ["os", "sys"], version := fun _ => none }
    [["import os", "from sys import path", "x = 1"]] "mypkg"
  exact ⟨h.2 (by decide), h.1⟩

/-- C10 — `find_imports` only emits identifiers whose top-level module is
currently loaded in the scanning interpreter (`all_modules()` /
`sys.modules`); an installed-but-unloaded package is omitted. -/
theorem c10_loaded_modules_only (env : ScanEnv) (files : List (List String))
    (pkg m : String) (hm : m ∈ findImports env files pkg) : m ∈ env.loaded :=
  (mem_findImports env files pkg m hm).2.2

/-- Witness for C10: `requests` is scanned but not loaded, and indeed omitted;
contrapositive applied at a concrete member. -/
theorem c10_loaded_modules_only_witness :
    "requests" ∉ findImports
      { stdlib := ["os"], findSpec := fun _ => SpecResult.noSpec,
        loaded := ["os"], version := fun _ => none }
      [["import requests"]] "mypkg" := by
  intro hm
  have h := c10_loaded_modules_only
    { stdlib := ["os"], findSpec := fun _ => SpecResult.noSpec,
      loaded := ["os"], version := fun _ => none }
    [["import requests"]] "mypkg" "requests" hm
  revert h
  decide

/-- C5 — each surviving identifier is emitted as `name==<version>` when the
version oracle resolves (a non-empty string) and as the bare `name` when it
does not; a scan surviving exactly one identifier yields exactly that one
entry, and the returned list is always sorted. -/
theorem c5_requirements_entries (env : ScanEnv) (files : List (List String))
    (pkg name : String) (h : findImports env files pkg = [name]) :
    generateRequirements env files pkg = [reqEntry env name] ∧
    (∀ v, env.version name = some v → v ≠ "" → reqEntry env name = name ++ "==" ++ v) ∧
    (env.version name = none → reqEntry env name = name) ∧
    (∀ (files' : List (List String)) (pkg' : String),
      sortedB strLe (generateRequirements env files' pkg') = true) := by
  refine ⟨?_, ?_, ?_, ?_⟩
  · rw [generateRequirements, h]
    rfl
  · intro v hv hne
    rw [reqEntry, hv]
    exact if_neg hne
  · intro h0
    rw [reqEntry, h0]
  · intro files' pkg'
    exact sortedB_sortLe strLe strLe_total _

/-- Witness for C5: scanning a file importing the single resolvable
third-party package `requests` yields exactly `requests==2.31.0`. -/
theorem c5_requirements_entries_witness :
    generateRequirements
      { stdlib := ["os", "sys"],
        findSpec := fun t => if t = "requests"
          then SpecResult.origin "/usr/lib/python3/site-packages/requests/src.py"
          else SpecResult.noSpec,
        loaded := ["requests", "os"],
        version := fun t => if t = "requests" then some "2.31.0" else none }
      [["import requests", "import os"]] "mypkg" = ["requests==2.31.0"] := by
  have h := c5_requirements_entries
    { stdlib := ["os", "sys"],
      findSpec := fun t => if t = "requests"
        then SpecResult.origin "/usr/lib/python3/site-packages/requests/src.py"
        else SpecResult.noSpec,
      loaded := ["requests", "os"],
      version := fun t => if t = "requests" then some "2.31.0" else none }
    [["import requests", "import os"]] "mypkg" "requests" (by decide)
  rw [h.1]
  have hv := h.2.1 "2.31.0" (by decide) (by decide)
  rw [hv]
  decide

/-- C2 counterexample — a primary creation command failing with a Structured
Command Error whose code is 2: the fallback is never attempted (0 attempts,
not the claimed exactly-once), and the failure is even swallowed. -/
theorem c2_fallback_counterexample :
    (createRepoAttempt (fun c => .error { cmd := c, errcode := 2, msg := "gh failed" })
      "gh repo create user/repo --source=. --public" "user" "repo").1 = 0 ∧
    (createRepoAttempt (fun c => .error { cmd := c, errcode := 2, msg := "gh failed" })
      "gh repo create user/repo --source=. --public" "user" "repo").2.1 = .ok () ∧
    (0 : Nat) ≠ 1 :=
  ⟨rfl, rfl, by decide⟩

/-- C2 amended — the fallback runs exactly once when the primary fails with
error code 1 and never otherwise; at most one attempt is ever made; when the
fallback itself fails, both the original and the fallback errors are recorded
and the raised error is derived from the fallback failure; the fallback has
exactly three steps. -/
theorem c2_fallback_amended (runO : String → Except OrchError String)
    (repoCmd username repoName : String) (e : OrchError)
    (hp : runO repoCmd = .error e) :
    (createRepoAttempt runO repoCmd username repoName).1 ≤ 1 ∧
    (e.errcode = 1 → (createRepoAttempt runO repoCmd username repoName).1 = 1) ∧
    (e.errcode ≠ 1 → (createRepoAttempt runO repoCmd username repoName).1 = 0) ∧
    (∀ e2, e.errcode = 1 → runSeq runO (backupCmds username repoName) = .error e2 →
      (createRepoAttempt runO repoCmd username repoName).2.1 =
        .error
          { cmd := e2.cmd, errcode := e2.errcode
            msg := "Failed to create remote repository " ++ repoName ++
              ". Check the commands and try again." } ∧
      (createRepoAttempt runO repoCmd username repoName).2.2 = [e, e2]) ∧
    (backupCmds username repoName).length = 3 := by
  refine ⟨?_, ?_, ?_, ?_, rfl⟩
  · by_cases h1 : e.errcode = 1
    · cases hs : runSeq runO (backupCmds username repoName) <;>
        simp [createRepoAttempt, hp, h1, hs]
    · simp [createRepoAttempt, hp, h1]
  · intro h1
    cases hs : runSeq runO (backupCmds username repoName) <;>
      simp [createRepoAttempt, hp, h1, hs]
  · intro h1
    simp [createRepoAttempt, hp, h1]
  · intro e2 h1 hs
    simp [createRepoAttempt, hp, h1, hs]

/-- Witness for C2's amended statement: primary fails with code 1, the
three-step fallback runs exactly once, its first step fails, and both errors
are recorded. -/
theorem c2_fallback_amended_witness :
    (createRepoAttempt (fun c => .error { cmd := c, errcode := 1, msg := "fail" })
      "gh repo create user/repo --source=. --public" "user" "repo").1 = 1 ∧
    (createRepoAttempt (fun c => .error { cmd := c, errcode := 1, msg := "fail" })
      "gh repo create user/repo --source=. --public" "user" "repo").2.2 =
      [{ cmd := "gh repo create user/repo --source=. --public", errcode := 1, msg := "fail" },
       { cmd := "git branch -m master", errcode := 1, msg := "fail" }] := by
  have h := c2_fallback_amended
    (fun c => .error { cmd := c, errcode := 1, msg := "fail" })
    "gh repo create user/repo --source=. --public" "user" "repo"
    { cmd := "gh repo create user/repo --source=. --public", errcode := 1, msg := "fail" }
    rfl
  have h4 := h.2.2.2.1
    { cmd := "git branch -m master", errcode := 1, msg := "fail" } rfl rfl
  exact ⟨h.2.1 rfl, h4.2⟩

/-- C6 — with no `.git` directory, `commit` raises the
"No git repository found." error and issues no `git commit` subprocess. -/
theorem c6_commit_requires_gitdir (env : CommitEnv) (fuel : Nat)
    (messageArg : Option String) (h : env.gitdirExists = false) :
    commitStep env (fuel + 1) messageArg =
      { outcome := .error { cmd := "git init", errcode := 1, msg := "No git repository found." }
        issued := [], prompts := 0 } := by
  simp [commitStep, h]

/-- Witness for C6 at a concrete environment. -/
theorem c6_commit_requires_gitdir_witness :
    (commitStep noRepoEnv (4 + 1) (some "initial commit")).issued = [] ∧
    (commitStep noRepoEnv (4 + 1) (some "initial commit")).outcome =
      .error { cmd := "git init", errcode := 1, msg := "No git repository found." } := by
  have h := c6_commit_requires_gitdir noRepoEnv 4 (some "initial commit") rfl
  rw [h]
  exact ⟨rfl, rfl⟩

/-- C9 — the failing input for the duplicate-commit-message guard: the
message file contains exactly `hello world` and `commit` is invoked with the
same message `hello world`, yet the code prompts zero times and issues
`git commit -m 'hello world'`, silently committing the duplicate (the guard
compares the shlex-quoted message `'hello world'` against the unquoted file
content, so any message that quoting changes is never detected). -/
theorem c9_duplicate_message_bug :
    dupMsgEnv.msgfileContent = "hello world" ∧
    (commitStep dupMsgEnv 5 (some "hello world")).prompts = 0 ∧
    (commitStep dupMsgEnv 5 (some "hello world")).issued = [dupIssuedCmd] ∧
    (commitStep dupMsgEnv 5 (some "hello world")).outcome = .ok (some "") := by
  refine ⟨rfl, by decide, by decide, by rfl⟩

end InitGit

